import Mathlib

/-!
Verification development for the diagnostic resolution & correlation engine
(source-map VLQ decoder, LRU-bounded source-map cache, stack-frame resolver,
signature classifier and temporal correlator).

Conventions of the shallow embedding:
* JavaScript numbers that only ever hold integral values are modelled as `Int`
  (exact below 2^53, which covers every value reached here); the 32-bit
  coercions performed by the bitwise operators `<<`, `>>` and `&` are modelled
  explicitly by `toInt32`.
* JavaScript strings are `String`; `String.split` with a one-character
  separator is `splitOnCharList`; `String.prototype.includes` is `strIncludes`.
* `fetch` and other platform effects are passed in as explicit parameters
  (a `Bool`-valued HEAD oracle, an `Option`/`Except` outcome); a rejected
  promise is an `Except.error`.
-/

set_option maxRecDepth 4096

/-! ## Generic list/string helpers (JS string primitives) -/

/-- `needle` occurs at the very start of `hay` (used to build substring search). -/
def listStartsWith : List Char → List Char → Bool
  | [], _ => true
  | _ :: _, [] => false
  | a :: as, b :: bs => a == b && listStartsWith as bs

/-- `String.prototype.includes` on char lists: `needle` occurs somewhere in `hay`. -/
def listHasSub (needle : List Char) : List Char → Bool
  | [] => needle.isEmpty
  | c :: rest => listStartsWith needle (c :: rest) || listHasSub needle rest

/-- JS `hay.includes(needle)`. -/
def strIncludes (hay needle : String) : Bool :=
  listHasSub needle.data hay.data

/-- JS `str.split(sep)` for a one-character separator, on char lists.
`""` splits to `[[]]`, like in JS. -/
def splitOnCharList (sep : Char) : List Char → List (List Char)
  | [] => [[]]
  | c :: rest =>
    match splitOnCharList sep rest with
    | [] => [[c]]
    | h :: t => if c == sep then [] :: h :: t else (c :: h) :: t

/-- JS `str.split(sep)` for a one-character separator, producing strings. -/
def strSplitChar (sep : Char) (s : String) : List String :=
  (splitOnCharList sep s.data).map String.mk

/-- First index of `c` in `l` (JS `indexOf`, as an `Option`). -/
def idxOf? (c : String) : List String → Option Nat
  | [] => none
  | x :: xs => if x == c then some 0 else (idxOf? c xs).map (· + 1)

/-- `[...new Set(xs)]`: de-duplicate, keeping the first occurrence order. -/
def jsSetDedupGo (seen : List String) : List String → List String
  | [] => []
  | x :: xs =>
    if seen.contains x then jsSetDedupGo seen xs
    else x :: jsSetDedupGo (x :: seen) xs

/-- De-duplication by exact text equality preserving first-seen order. -/
def jsSetDedup (xs : List String) : List String :=
  jsSetDedupGo [] xs

/-- `s.endsWith(t)`. -/
def strEndsWith (s t : String) : Bool :=
  listStartsWith t.data.reverse s.data.reverse

/-- Drop the last `n` characters of a string. -/
def strDropRight (s : String) (n : Nat) : String :=
  String.mk (s.data.take (s.data.length - n))

/-- ASCII lower-casing of a string, the fragment of `toLowerCase`/`/i`-matching
relevant here (all pattern literals are ASCII or caseless Korean). -/
def lowerAscii (s : String) : List Char :=
  s.data.map Char.toLower

/-! ## JS 32-bit integer semantics -/

/-- JS `ToInt32`: reduce an (exact) integer into `[-2^31, 2^31)`. -/
def toInt32 (x : Int) : Int :=
  let r := x.emod 4294967296
  if r < 2147483648 then r else r - 4294967296

/-- JS `a << s` for a statically nonnegative shift count: both operands pass
through `ToInt32`, the count is taken mod 32, the result is an int32. -/
def jsShl (a : Int) (s : Nat) : Int :=
  toInt32 (toInt32 a * 2 ^ (s % 32))

/-- JS `a >> 1`: `ToInt32`, then arithmetic shift right by one (floor halving). -/
def jsShr1 (a : Int) : Int :=
  (toInt32 a).fdiv 2

/-- JS `a & 1`: the low bit of the int32 representation of `a`. -/
def jsBitAnd1 (a : Int) : Int :=
  (toInt32 a).emod 2

/-- JS `Array.prototype.slice(s, e)` (negative indices count from the end). -/
def jsArraySlice (l : List String) (s e : Int) : List String :=
  let len : Int := l.length
  let s1 := if s < 0 then max 0 (len + s) else min s len
  let e1 := if e < 0 then max 0 (len + e) else min e len
  (l.take e1.toNat).drop s1.toNat

/-- JS `arr[i]` as an `Option` (out-of-range and negative indices give
`undefined`). -/
def jsArrayGet (l : List String) (i : Int) : Option String :=
  if i < 0 then none else l.get? i.toNat

/-! ## VLQ decoding (sourcemap-resolver.ts, `decodeVLQ`)

The constants are the source's own: `VLQ_BASE = 64`, `VLQ_BASE_SHIFT = 5`,
`VLQ_BASE_MASK = VLQ_BASE - 1 = 63`, `VLQ_CONTINUATION_BIT = VLQ_BASE = 64`. -/

def VLQ_BASE : Nat := 64

def VLQ_BASE_SHIFT : Nat := 5

def VLQ_BASE_MASK : Nat := VLQ_BASE - 1

def VLQ_CONTINUATION_BIT : Nat := VLQ_BASE

/-- The 64-symbol alphabet of the mapping format. -/
def base64Chars : List Char :=
  ("ABCDEFGHIJKLMNOPQRSTUVWXYZabcdefghijklmnopqrstuvwxyz0123456789+/").data

/-- Index of a character in the alphabet (the `charToInteger` record;
characters outside the alphabet give `undefined`). -/
def charToInteger (c : Char) : Option Nat :=
  go base64Chars
where
  go : List Char → Option Nat
    | [] => none
    | x :: xs => if x == c then some 0 else (go xs).map (· + 1)

/-- The loop body of `decodeVLQ`: state is the group shift and the partial
`value`; a character without a continuation bit finalises one integer
(sign flag in the least-significant bit). -/
def decodeVLQGo : List Char → Nat → Int → List Int
  | [], _, _ => []
  | ch :: rest, shift, value =>
    match charToInteger ch with
    | none => decodeVLQGo rest shift value
    | some integer =>
      let integerWithoutContinuationBit : Int := (Nat.land integer VLQ_BASE_MASK : Nat)
      let value1 := value + jsShl integerWithoutContinuationBit shift
      if (Nat.land integer VLQ_CONTINUATION_BIT) != 0 then
        decodeVLQGo rest (shift + VLQ_BASE_SHIFT) value1
      else
        let shouldNegate := jsBitAnd1 value1 == 1
        let value2 := jsShr1 value1
        let value3 := if shouldNegate then -value2 else value2
        value3 :: decodeVLQGo rest 0 0

/-- `decodeVLQ(str)`: decode a run of base64 VLQ characters into integers. -/
def decodeVLQ (str : String) : List Int :=
  decodeVLQGo str.data 0 0

/-! ## The base64 VLQ encoding scheme, as the specification describes it:
each integer's sign goes to the least-significant bit of an unsigned value,
which is split into 5-bit groups least-significant first; every group except
the last carries a continuation flag in the 6th bit of its 64-symbol code. -/

/-- Sign-encode: LSB is the sign flag, the rest is the magnitude. -/
def vlqSignedValue (n : Int) : Nat :=
  if n < 0 then 2 * n.natAbs + 1 else 2 * n.natAbs

/-- 5-bit groups of `v`, least-significant first (fuel variant; the fuel
`v + 1` always suffices since `v / 32 < v` for `v ≥ 32`). -/
def vlqGroupsGo : Nat → Nat → List Nat
  | 0, v => [v]
  | fuel + 1, v => if v < 32 then [v] else v % 32 :: vlqGroupsGo fuel (v / 32)

/-- 5-bit groups of `v`, least-significant first. -/
def vlqGroups (v : Nat) : List Nat :=
  vlqGroupsGo (v + 1) v

/-- Pack groups into alphabet characters; every group but the last gets the
continuation flag (bit 5, value 32) in its 6-bit code. -/
def encodeGroups : List Nat → List Char
  | [] => []
  | [g] => [base64Chars.getD g 'A']
  | g :: rest => base64Chars.getD (g + 32) 'A' :: encodeGroups rest

/-- Encode one integer with the base64 VLQ scheme of the specification. -/
def encodeVLQChars (n : Int) : List Char :=
  encodeGroups (vlqGroups (vlqSignedValue n))

/-- Encode a sequence of integers (VLQ runs are simply concatenated). -/
def encodeVLQSequence (l : List Int) : String :=
  String.mk (l.map encodeVLQChars).flatten

/-! ## Mapping decoding (sourcemap-resolver.ts, `decodeMappings`) -/

/-- One decoded mapping segment with absolute positions. -/
structure Mapping where
  generatedLine : Nat
  generatedColumn : Int
  sourceIndex : Option Int := none
  originalLine : Option Int := none
  originalColumn : Option Int := none
  nameIndex : Option Int := none
deriving DecidableEq

/-- The inner `for (const segment of segments)` loop: carries the running
generated column (reset per line) and the four persistent running totals,
returning the segments of one line and the persisted totals. -/
def processSegments (lineIndex : Nat) (generatedColumn sourceIndex originalLine
    originalColumn nameIndex : Int) :
    List (List Char) → List Mapping × Int × Int × Int × Int
  | [] => ([], sourceIndex, originalLine, originalColumn, nameIndex)
  | seg :: rest =>
    if seg.isEmpty then
      processSegments lineIndex generatedColumn sourceIndex originalLine
        originalColumn nameIndex rest
    else
      match decodeVLQGo seg 0 0 with
      | [] =>
        processSegments lineIndex generatedColumn sourceIndex originalLine
          originalColumn nameIndex rest
      | d0 :: ds =>
        let generatedColumn1 := generatedColumn + d0
        match ds with
        | d1 :: d2 :: d3 :: ds4 =>
          let sourceIndex1 := sourceIndex + d1
          let originalLine1 := originalLine + d2
          let originalColumn1 := originalColumn + d3
          match ds4 with
          | d4 :: _ =>
            let nameIndex1 := nameIndex + d4
            let m : Mapping :=
              { generatedLine := lineIndex, generatedColumn := generatedColumn1,
                sourceIndex := some sourceIndex1, originalLine := some originalLine1,
                originalColumn := some originalColumn1, nameIndex := some nameIndex1 }
            let (ms, s, ol, oc, ni) :=
              processSegments lineIndex generatedColumn1 sourceIndex1 originalLine1
                originalColumn1 nameIndex1 rest
            (m :: ms, s, ol, oc, ni)
          | [] =>
            let m : Mapping :=
              { generatedLine := lineIndex, generatedColumn := generatedColumn1,
                sourceIndex := some sourceIndex1, originalLine := some originalLine1,
                originalColumn := some originalColumn1 }
            let (ms, s, ol, oc, ni) :=
              processSegments lineIndex generatedColumn1 sourceIndex1 originalLine1
                originalColumn1 nameIndex rest
            (m :: ms, s, ol, oc, ni)
        | _ =>
          let m : Mapping :=
            { generatedLine := lineIndex, generatedColumn := generatedColumn1 }
          let (ms, s, ol, oc, ni) :=
            processSegments lineIndex generatedColumn1 sourceIndex originalLine
              originalColumn nameIndex rest
          (m :: ms, s, ol, oc, ni)

/-- The outer per-line loop of `decodeMappings`: the line index advances on
every iteration (also for empty lines), the generated column restarts at 0. -/
def decodeMappingsGo : List (List Char) → Nat → Int → Int → Int → Int → List Mapping
  | [], _, _, _, _, _ => []
  | line :: rest, lineIndex, s, ol, oc, ni =>
    if line.isEmpty then decodeMappingsGo rest (lineIndex + 1) s ol oc ni
    else
      let (ms, s1, ol1, oc1, ni1) :=
        processSegments lineIndex 0 s ol oc ni (splitOnCharList ',' line)
      ms ++ decodeMappingsGo rest (lineIndex + 1) s1 ol1 oc1 ni1

/-- `decodeMappings(mappingsStr)`: the full mapping table. -/
def decodeMappings (mappingsStr : String) : List Mapping :=
  decodeMappingsGo (splitOnCharList ';' mappingsStr.data) 0 0 0 0 0

/-! ## `originalPositionFor` / `sourceContentFor` (createSourceMapConsumer) -/

/-- The position record returned by `originalPositionFor` (JS `null`s are
`none`). -/
structure OrigPosition where
  source : Option String
  line : Option Int
  column : Option Int
  name : Option String
deriving DecidableEq

/-- The decoded consumer: the raw `sources`/`names`/`sourcesContent` tables
plus the decoded mapping list. -/
structure Consumer where
  sources : List String
  names : List String
  sourcesContent : Option (List String) := none
  mappings : List Mapping
deriving DecidableEq

/-- The raw JSON source map record. -/
structure RawSourceMap where
  version : Int
  sources : List String
  names : List String
  mappings : String
  sourcesContent : Option (List String) := none

/-- `createSourceMapConsumer`: decode the mapping text once. -/
def createSourceMapConsumer (raw : RawSourceMap) : Consumer :=
  { sources := raw.sources, names := raw.names,
    sourcesContent := raw.sourcesContent, mappings := decodeMappings raw.mappings }

/-- The `mappings.find(...)` call inside `originalPositionFor`: the first
segment whose generated line is `position.line - 1` and whose generated
column does not exceed `position.column`. -/
def lookupMapping (mappings : List Mapping) (line column : Int) : Option Mapping :=
  mappings.find? fun m =>
    ((m.generatedLine : Int) == line - 1) && decide (m.generatedColumn ≤ column)

/-- `originalPositionFor({line, column})`. -/
def originalPositionFor (c : Consumer) (line column : Int) : OrigPosition :=
  match lookupMapping c.mappings line column with
  | some mapping =>
    match mapping.originalLine with
    | some ol =>
      { source := jsArrayGet c.sources (mapping.sourceIndex.getD 0),
        line := some (ol + 1),
        column := some (mapping.originalColumn.getD 0),
        name :=
          match mapping.nameIndex with
          | some ni => jsArrayGet c.names ni
          | none => none }
    | none => { source := none, line := none, column := none, name := none }
  | none => { source := none, line := none, column := none, name := none }

/-- `sourceContentFor(source)`. -/
def sourceContentFor (c : Consumer) (source : String) : Option String :=
  match idxOf? source c.sources with
  | some index =>
    match c.sourcesContent with
    | some sc => jsArrayGet sc index
    | none => none
  | none => none

/-! ## The LRU source-map cache (SourceMapResolver)

`sourceMapCache` is a JS `Map` (insertion-ordered, unique keys), modelled as
an association list; `cacheAccessOrder` is the LRU tracking array. `destroy()`
calls are recorded in the order they happen in the `destroyed` log. The value
type is abstract (`SourceMapConsumer | null` becomes `Option V`). -/

structure CacheState (V : Type) where
  sourceMapCache : List (String × Option V)
  cacheAccessOrder : List String
  destroyed : List V
deriving DecidableEq

/-- The empty cache. -/
def initialCacheState (V : Type) : CacheState V :=
  { sourceMapCache := [], cacheAccessOrder := [], destroyed := [] }

/-- JS `Map.has`. -/
def mapHas {V : Type} (m : List (String × Option V)) (k : String) : Bool :=
  m.any fun p => p.1 == k

/-- JS `Map.get` (`none` = `undefined`; `some none` = a stored `null`). -/
def mapGet {V : Type} (m : List (String × Option V)) (k : String) :
    Option (Option V) :=
  (m.find? fun p => p.1 == k).map Prod.snd

/-- JS `Map.set`: overwrite in place if present, else append. -/
def mapSet {V : Type} (m : List (String × Option V)) (k : String) (v : Option V) :
    List (String × Option V) :=
  if mapHas m k then m.map fun p => if p.1 == k then (k, v) else p
  else m ++ [(k, v)]

/-- JS `Map.delete`. -/
def mapDelete {V : Type} (m : List (String × Option V)) (k : String) :
    List (String × Option V) :=
  m.filter fun p => p.1 != k

/-- `MAX_CACHE_SIZE` of `SourceMapResolver`. -/
def MAX_CACHE_SIZE : Nat := 50

/-- `addToCache(key, value)`: if the map is at capacity, `shift()` the oldest
key off the access order and — `if (oldestKey)` — call `destroy()` on its
consumer when it has one and delete it; then `set` the new entry and push its
key. `if (oldestKey)` is a truthiness test: it rejects both `undefined`
(modelled by the empty-order branch, where `shift()` leaves nothing to drop)
and the empty string, which is shifted off the order but neither destroyed
nor deleted. The capacity is a parameter so that the same algorithm can be
run at any `N`. -/
def addToCache {V : Type} (maxCacheSize : Nat) (st : CacheState V)
    (key : String) (value : Option V) : CacheState V :=
  let st1 :=
    if st.sourceMapCache.length ≥ maxCacheSize then
      match st.cacheAccessOrder with
      | [] => st
      | oldestKey :: restOrder =>
        if oldestKey = "" then { st with cacheAccessOrder := restOrder }
        else
          { sourceMapCache := mapDelete st.sourceMapCache oldestKey,
            cacheAccessOrder := restOrder,
            destroyed :=
              st.destroyed ++
                match mapGet st.sourceMapCache oldestKey with
                | some (some oldConsumer) => [oldConsumer]
                | _ => [] }
    else st
  { st1 with
    sourceMapCache := mapSet st1.sourceMapCache key value,
    cacheAccessOrder := st1.cacheAccessOrder ++ [key] }

/-- `updateCacheAccess(key)`: splice the key out of the access order (first
occurrence) and push it to the back. -/
def updateCacheAccess (order : List String) (key : String) : List String :=
  if order.contains key then order.erase key ++ [key] else order

/-- The cache-visible behaviour of one `getSourceMapConsumer(fileUrl)` call:
a hit refreshes the access order; a miss runs the lookup pipeline, whose
outcome (`some v` = a consumer was built, `none` = no mapping found or any
failure) is cached — failures are cached as `null`. -/
def accessStep {V : Type} (maxCacheSize : Nat) (st : CacheState V)
    (fileUrl : String) (fetched : Option V) : CacheState V :=
  if mapHas st.sourceMapCache fileUrl then
    { st with cacheAccessOrder := updateCacheAccess st.cacheAccessOrder fileUrl }
  else addToCache maxCacheSize st fileUrl fetched

/-- Run a sequence of `getSourceMapConsumer` calls against the empty cache. -/
def runCacheOps {V : Type} (maxCacheSize : Nat)
    (ops : List (String × Option V)) : CacheState V :=
  ops.foldl (fun st op => accessStep maxCacheSize st op.1 op.2)
    (initialCacheState V)

/-! ## Stack-frame resolution (resolveStackFrame) -/

/-- The resolved counterpart attached to a frame. -/
structure OriginalInfo where
  fileName : String
  lineNumber : Int
  columnNumber : Int
  source : Option String := none
deriving DecidableEq

/-- A captured stack frame. -/
structure StackFrame where
  fileName : String
  lineNumber : Int
  columnNumber : Int
  functionName : String
  source : String
  original : Option OriginalInfo := none
deriving DecidableEq

/-- `CODE_CONTEXT_LINES` worth of preview around the resolved line (the
`try { ... sourceContentFor ... } catch` block; `sourceContentFor` is total
here, so the inner catch has nothing to absorb). `if (sourceContent)` is a
truthiness test, so an empty string yields no preview. -/
def sourcePreviewFor (consumer : Consumer) (originalPosition : OrigPosition)
    (src : String) : Option String :=
  match sourceContentFor consumer src with
  | none => none
  | some sourceContent =>
    if sourceContent = "" then none
    else
      let lines := strSplitChar '\n' sourceContent
      let lineIndex : Int := originalPosition.line.getD 1 - 1
      let contextLines : Int := 3
      let startLine := max 0 (lineIndex - contextLines)
      let endLine := min (lines.length : Int) (lineIndex + contextLines + 1)
      some (String.intercalate ("\n") (jsArraySlice lines startLine endLine))

/-- `resolveStackFrame(frame)`. The whole body sits in a `try`; the only
operation that can reject is the awaited `getSourceMapConsumer` pipeline,
passed here as `consumerFetch` (`Except.error` = the fetch threw, caught by
the outer `catch`, which returns the frame unchanged; `ok none` = no source
map). `if (originalPosition.source)` is a truthiness test. -/
def resolveStackFrame (isEnabled : Bool)
    (consumerFetch : Except Unit (Option Consumer)) (frame : StackFrame) :
    StackFrame :=
  if isEnabled = false then frame
  else
    match consumerFetch with
    | Except.error _ => frame
    | Except.ok none => frame
    | Except.ok (some consumer) =>
      let originalPosition :=
        originalPositionFor consumer frame.lineNumber frame.columnNumber
      match originalPosition.source with
      | none => frame
      | some src =>
        if src = "" then frame
        else
          { frame with
            original := some
              { fileName := src,
                lineNumber := originalPosition.line.getD 0,
                columnNumber := originalPosition.column.getD 0,
                source := sourcePreviewFor consumer originalPosition src } }

/-! ## Source-map URL discovery (findSourceMapUrl) -/

/-- JS `url.replace(/\.js$/, '.js.map')`: a trailing `.js` becomes `.js.map`;
any other URL is returned unchanged. -/
def jsReplaceJsToMap (url : String) : String :=
  if strEndsWith url (".js") then strDropRight url 3 ++ ".js.map" else url

/-- JS regex `\s` (whitespace class). -/
def isJsWhitespace (c : Char) : Bool :=
  c == ' ' || c == '\t' || c == '\n' || c == '\r' || c == '\x0b' || c == '\x0c' ||
  c == ' ' || c == '﻿' || c == ' ' ||
  (' ' ≤ c && c ≤ ' ') ||
  c == ' ' || c == ' ' || c == ' ' || c == ' ' || c == '　'

/-- Try to match `\/\/[#@]\s*sourceMappingURL\s*=\s*(\S+)` at the head of the
char list, returning the capture group. -/
def matchDirectiveAt : List Char → Option String
  | '/' :: '/' :: c :: rest =>
    if c == '#' || c == '@' then
      let r1 := rest.dropWhile isJsWhitespace
      if listStartsWith ("sourceMappingURL").data r1 then
        let r2 := r1.drop 16
        let r3 := r2.dropWhile isJsWhitespace
        match r3 with
        | '=' :: r4 =>
          let r5 := r4.dropWhile isJsWhitespace
          let tok := r5.takeWhile fun ch => !isJsWhitespace ch
          if tok.isEmpty then none else some (String.mk tok)
        | _ => none
      else none
    else none
  | _ => none

/-- Scan for the first (leftmost) occurrence of the directive. -/
def scanSourceMappingURLGo : List Char → Option String
  | [] => none
  | c :: rest =>
    match matchDirectiveAt (c :: rest) with
    | some tok => some tok
    | none => scanSourceMappingURLGo rest

/-- `content.match(/\/\/[#@]\s*sourceMappingURL\s*=\s*(\S+)/)`, capture 1. -/
def scanSourceMappingURL (content : String) : Option String :=
  scanSourceMappingURLGo content.data

/-- `findSourceMapUrl(fileUrl)`. Platform effects are parameters: `headOk u`
is whether `fetch(u, {method:'HEAD'})` resolves ok (a thrown fetch behaves
like a failed one — the loop just tries the next candidate); `bodyFetch` is
the body of `fetch(fileUrl)` when that resolves ok, else `none`; `resolveU`
is `new URL(ref, base).href`. The write back into `sourceMapUrls` only feeds
later calls' cache lookups and is not part of the returned value. -/
def findSourceMapUrl (urlCache : List (String × String))
    (resolveU : String → String → String) (headOk : String → Bool)
    (bodyFetch : Option String) (fileUrl : String) : Option String :=
  match urlCache.find? fun p => p.1 == fileUrl with
  | some p => some p.2
  | none =>
    let possibleUrls := [fileUrl ++ ".map", jsReplaceJsToMap fileUrl]
    match possibleUrls.find? headOk with
    | some url => some url
    | none =>
      match bodyFetch with
      | some content =>
        match scanSourceMappingURL content with
        | some ref => some (resolveU ref fileUrl)
        | none => none
      | none => none

/-- The second candidate location exactly as the claim words it: the URL with
its file extension (the part after the last dot) replaced by `.map`. Stated
for comparison with `jsReplaceJsToMap`; URLs without a dot are unchanged. -/
def extensionReplacedWithMap (url : String) : String :=
  match url.data.reverse.dropWhile fun c => c != '.' with
  | '.' :: baseRev => String.mk (baseRev.reverse ++ (".map").data)
  | _ => url

/-! ## Log analyzer data model (types/index.ts) -/

/-- Console log levels. -/
inductive LogLevel
  | log
  | info
  | warn
  | error
  | debug
deriving DecidableEq, BEq

/-- Network request outcomes. -/
inductive RequestStatus
  | pending
  | success
  | error
  | timeout
  | aborted
deriving DecidableEq, BEq

/-- Severity levels of analysis results. -/
inductive Severity
  | low
  | medium
  | high
  | critical
deriving DecidableEq, BEq

/-- A captured log entry (the `args` array and the optional
`relatedNetworkRequestIds` are never read by the analyzed code and are
omitted). -/
structure LogEntry where
  id : String
  level : LogLevel
  message : String
  timestamp : Int
  stackTrace : List StackFrame := []
deriving DecidableEq

/-- A captured network request (headers, bodies, `statusText` and the `error`
object are never read by the analyzed code and are omitted). -/
structure NetworkRequest where
  id : String
  method : String
  url : String
  startTime : Int
  endTime : Option Int := none
  status : Option Int := none
  requestStatus : RequestStatus
deriving DecidableEq

/-- An error-signature rule. `pattern.test(message)` is the `pattern` field;
a `RegExp` value is its test function in this embedding. -/
structure ErrorPattern where
  pattern : String → Bool
  errorType : String
  possibleCauses : List String
  suggestions : List String
  severity : Severity

/-- The serializable form of a rule (`patternSource`/`patternFlags` are the
`RegExp` source and flags). -/
structure SerializableErrorPattern where
  patternSource : String
  patternFlags : String
  errorType : String
  possibleCauses : List String
  suggestions : List String
  severity : Severity

/-- The code-context block of an `AnalysisResult`. -/
structure CodeContext where
  fileName : String
  lineNumber : Int
  columnNumber : Int
  sourcePreview : List String
deriving DecidableEq

/-- The produced analysis result. -/
structure AnalysisResult where
  logEntry : LogEntry
  errorType : Option String
  possibleCauses : List String
  suggestions : List String
  relatedNetworkRequests : List NetworkRequest
  severity : Severity
  codeContext : Option CodeContext

/-! ## Built-in error patterns (error-patterns.ts, `DEFAULT_ERROR_PATTERNS`)

Each JS regex (all with the `/i` flag) is compiled by hand into an equivalent
test over the ASCII-lowercased message; plain alternations become substring
disjunctions, `\[HTTP 4\d{2}\]`/`\[HTTP 5\d{2}\]` get dedicated scanners, and
`\[Network Error\].*서버에 연결할 수 없습니다` needs a two-part search whose gap
may not cross a line terminator (`.` does not match those). -/

/-- Case-insensitive substring disjunction (needles given lowercased). -/
def containsAnyCI (needles : List String) (msg : String) : Bool :=
  let m := lowerAscii msg
  needles.any fun n => listHasSub n.data m

/-- JS regex line terminators (the characters `.` does not match). -/
def isJsLineTerminator (c : Char) : Bool :=
  c == '\n' || c == '\r' || c == ' ' || c == ' '

/-- Search for `needle` allowing only non-line-terminator gap characters
before it (the `.*needle` tail of a regex alternative). -/
def gapSearch (needle : List Char) : List Char → Bool
  | [] => needle.isEmpty
  | c :: rest =>
    listStartsWith needle (c :: rest) ||
      (!isJsLineTerminator c && gapSearch needle rest)

/-- Search for `n1` followed (same line) by `n2`, anywhere in the text:
the `n1.*n2` regex alternative. -/
def seqSearch (n1 n2 : List Char) : List Char → Bool
  | [] => false
  | c :: rest =>
    (listStartsWith n1 (c :: rest) && gapSearch n2 ((c :: rest).drop n1.length)) ||
      seqSearch n1 n2 rest

/-- `/\[Network Error\].*서버에 연결할 수 없습니다|Failed to fetch|net::ERR_NAME_NOT_RESOLVED|net::ERR_CONNECTION_REFUSED/i`. -/
def networkConnectionErrorTest (msg : String) : Bool :=
  let m := lowerAscii msg
  seqSearch ("[network error]").data ("서버에 연결할 수 없습니다").data m ||
  listHasSub ("failed to fetch").data m ||
  listHasSub ("net::err_name_not_resolved").data m ||
  listHasSub ("net::err_connection_refused").data m

/-- `[HTTP d\d{2}]` at the head of the (lowercased) list, for a given leading
digit. -/
def httpBracketAt (lead : Char) : List Char → Bool
  | '[' :: 'h' :: 't' :: 't' :: 'p' :: ' ' :: d0 :: d1 :: d2 :: ']' :: _ =>
    d0 == lead && d1.isDigit && d2.isDigit
  | _ => false

/-- Scan for `[HTTP d\d{2}]` anywhere. -/
def httpBracketSearch (lead : Char) : List Char → Bool
  | [] => false
  | c :: rest => httpBracketAt lead (c :: rest) || httpBracketSearch lead rest

/-- `/\[HTTP 4\d{2}\]/i`. -/
def httpClientErrorTest (msg : String) : Bool :=
  httpBracketSearch '4' (lowerAscii msg)

/-- `/\[HTTP 5\d{2}\]/i`. -/
def httpServerErrorTest (msg : String) : Bool :=
  httpBracketSearch '5' (lowerAscii msg)

/-- The built-in rule list, in source order. -/
def DEFAULT_ERROR_PATTERNS : List ErrorPattern := [
  { pattern := networkConnectionErrorTest,
    errorType := "Network Connection Error",
    possibleCauses := [
      "DNS 조회 실패 - 도메인이 존재하지 않거나 잘못되었습니다",
      "서버가 다운되었거나 접근할 수 없습니다",
      "방화벽이나 프록시가 연결을 차단하고 있습니다",
      "네트워크 연결이 끊어졌습니다"],
    suggestions := [
      "URL의 도메인이 올바른지 확인하세요",
      "서버가 실행 중인지 확인하세요",
      "네트워크 연결 상태를 확인하세요",
      "브라우저 개발자 도구의 Network 탭에서 상세 정보를 확인하세요"],
    severity := Severity.critical },
  { pattern := httpClientErrorTest,
    errorType := "HTTP Client Error",
    possibleCauses := [
      "인증 토큰이 만료되었거나 없습니다 (401)",
      "권한이 없는 리소스에 접근했습니다 (403)",
      "요청한 리소스를 찾을 수 없습니다 (404)",
      "요청 데이터 형식이 잘못되었습니다 (400)"],
    suggestions := [
      "인증 상태를 확인하고 필요시 재로그인하세요",
      "API 엔드포인트 URL이 올바른지 확인하세요",
      "요청 파라미터와 바디 형식을 확인하세요",
      "API 문서를 참고하여 필수 헤더가 포함되었는지 확인하세요"],
    severity := Severity.high },
  { pattern := httpServerErrorTest,
    errorType := "HTTP Server Error",
    possibleCauses := [
      "서버 내부 오류가 발생했습니다 (500)",
      "서버가 과부하 상태입니다 (503)",
      "게이트웨이 타임아웃이 발생했습니다 (504)",
      "서버 설정 문제가 있습니다"],
    suggestions := [
      "잠시 후 다시 시도해보세요",
      "서버 로그를 확인하세요",
      "백엔드 팀에 문의하세요",
      "요청 데이터가 서버에서 처리 가능한 형식인지 확인하세요"],
    severity := Severity.critical },
  { pattern := containsAnyCI ["[network timeout]", "timeout", "etimedout", "net::err_timed_out"],
    errorType := "Network Timeout",
    possibleCauses := [
      "서버 응답이 너무 느립니다",
      "네트워크 연결이 불안정합니다",
      "요청 데이터가 너무 큽니다",
      "서버가 과부하 상태입니다"],
    suggestions := [
      "타임아웃 시간을 늘려보세요",
      "요청 데이터 크기를 줄여보세요",
      "네트워크 연결 상태를 확인하세요",
      "서버 상태를 모니터링하세요"],
    severity := Severity.high },
  { pattern := containsAnyCI ["cors", "cross-origin", "access-control-allow"],
    errorType := "CORS Error",
    possibleCauses := [
      "서버에서 CORS 헤더가 설정되지 않았습니다",
      "허용되지 않은 Origin에서 요청했습니다",
      "허용되지 않은 HTTP 메서드를 사용했습니다",
      "커스텀 헤더가 CORS 정책에 의해 차단되었습니다"],
    suggestions := [
      "서버의 CORS 설정을 확인하세요",
      "Access-Control-Allow-Origin 헤더가 올바르게 설정되어 있는지 확인하세요",
      "프록시 서버를 통해 요청하는 것을 고려하세요",
      "개발 환경에서는 CORS 확장 프로그램을 사용해보세요"],
    severity := Severity.high },
  { pattern := containsAnyCI ["typeerror",
      "cannot read property of undefined", "cannot read property of null",
      "cannot read properties of undefined", "cannot read properties of null",
      "is not a function", "is not defined"],
    errorType := "Type Error",
    possibleCauses := [
      "null 또는 undefined 값에 접근을 시도했습니다",
      "존재하지 않는 함수를 호출하려 했습니다",
      "변수가 선언되지 않았습니다",
      "비동기 데이터가 아직 로드되지 않았습니다"],
    suggestions := [
      "옵셔널 체이닝(?.)을 사용하여 안전하게 접근하세요",
      "변수가 올바르게 선언되고 초기화되었는지 확인하세요",
      "API 응답 데이터 구조를 확인하세요",
      "비동기 데이터 로딩 상태를 처리하세요"],
    severity := Severity.high },
  { pattern := containsAnyCI ["referenceerror", "is not defined"],
    errorType := "Reference Error",
    possibleCauses := [
      "선언되지 않은 변수를 참조했습니다",
      "스코프 밖의 변수에 접근하려 했습니다",
      "모듈이 올바르게 import되지 않았습니다"],
    suggestions := [
      "변수명에 오타가 없는지 확인하세요",
      "변수가 사용 전에 선언되었는지 확인하세요",
      "필요한 모듈이 import되었는지 확인하세요"],
    severity := Severity.high },
  { pattern := containsAnyCI ["syntaxerror", "unexpected token", "json.parse"],
    errorType := "Syntax Error",
    possibleCauses := [
      "JSON 형식이 올바르지 않습니다",
      "JavaScript 구문에 오류가 있습니다",
      "API 응답이 예상과 다른 형식입니다"],
    suggestions := [
      "JSON 데이터 형식을 확인하세요",
      "API 응답 내용을 확인하세요",
      "코드 구문을 검토하세요"],
    severity := Severity.high },
  { pattern := containsAnyCI ["rangeerror", "maximum call stack", "invalid array length"],
    errorType := "Range Error",
    possibleCauses := [
      "무한 재귀가 발생했습니다",
      "배열 크기가 허용 범위를 초과했습니다",
      "함수 인자 값이 허용 범위를 벗어났습니다"],
    suggestions := [
      "재귀 함수에 종료 조건이 있는지 확인하세요",
      "무한 루프가 발생하지 않는지 확인하세요",
      "데이터 크기를 제한하세요"],
    severity := Severity.critical },
  { pattern := containsAnyCI ["react", "usestate", "useeffect", "hook", "render", "component"],
    errorType := "React Error",
    possibleCauses := [
      "Hook 사용 규칙을 위반했습니다",
      "컴포넌트 렌더링 중 에러가 발생했습니다",
      "잘못된 prop 타입이 전달되었습니다"],
    suggestions := [
      "Hook은 컴포넌트 최상위에서만 호출하세요",
      "useEffect의 의존성 배열을 확인하세요",
      "prop 타입을 검증하세요"],
    severity := Severity.medium },
  { pattern := containsAnyCI ["unhandled promise", "async", "await", "promise"],
    errorType := "Async Error",
    possibleCauses := [
      "Promise가 reject되었지만 처리되지 않았습니다",
      "async 함수에서 예외가 발생했습니다",
      "비동기 작업 중 에러가 발생했습니다"],
    suggestions := [
      "try-catch로 비동기 에러를 처리하세요",
      ".catch()를 사용하여 Promise 에러를 처리하세요",
      "에러 경계(Error Boundary)를 구현하세요"],
    severity := Severity.medium },
  { pattern := containsAnyCI ["401", "unauthorized"],
    errorType := "Authentication Error",
    possibleCauses := [
      "인증 토큰이 유효하지 않거나 만료되었습니다",
      "로그인이 필요합니다",
      "권한이 없습니다"],
    suggestions := [
      "로그인 상태를 확인하세요",
      "인증 토큰을 갱신하세요",
      "사용자 권한을 확인하세요"],
    severity := Severity.medium },
  { pattern := containsAnyCI ["403", "forbidden"],
    errorType := "Authorization Error",
    possibleCauses := [
      "해당 리소스에 대한 권한이 없습니다",
      "접근이 금지된 리소스입니다"],
    suggestions := [
      "사용자 권한을 확인하세요",
      "관리자에게 문의하세요"],
    severity := Severity.medium },
  { pattern := containsAnyCI ["404", "not found"],
    errorType := "Not Found Error",
    possibleCauses := [
      "요청한 리소스를 찾을 수 없습니다",
      "API 엔드포인트가 존재하지 않습니다",
      "URL이 잘못되었습니다"],
    suggestions := [
      "URL이 올바른지 확인하세요",
      "API 엔드포인트가 존재하는지 확인하세요",
      "라우팅 설정을 확인하세요"],
    severity := Severity.medium },
  { pattern := containsAnyCI ["500", "internal server error"],
    errorType := "Server Error",
    possibleCauses := [
      "서버 내부에서 에러가 발생했습니다",
      "백엔드 로직에 문제가 있습니다"],
    suggestions := [
      "서버 로그를 확인하세요",
      "백엔드 개발자에게 문의하세요",
      "요청 데이터가 올바른지 확인하세요"],
    severity := Severity.high },
  { pattern := containsAnyCI ["deprecated", "warning", "warn"],
    errorType := "Deprecation Warning",
    possibleCauses := [
      "더 이상 사용되지 않는 API를 사용하고 있습니다",
      "향후 버전에서 제거될 기능입니다"],
    suggestions := [
      "권장되는 대체 API로 마이그레이션하세요",
      "라이브러리 문서를 확인하세요"],
    severity := Severity.low }]

/-! ## Temporal correlator (log-analyzer.ts, `findRelatedNetworkRequests`) -/

/-- `TIME_WINDOW_MS` of `ANALYSIS_CONSTANTS`. -/
def TIME_WINDOW_MS : Nat := 2000

/-- `request.requestStatus === 'error'`. -/
def isErrorStatus : RequestStatus → Bool
  | RequestStatus.error => true
  | _ => false

/-- `request.requestStatus === 'timeout'`. -/
def isTimeoutStatus : RequestStatus → Bool
  | RequestStatus.timeout => true
  | _ => false

/-- `request.endTime || request.startTime`: `||` falls through on any falsy
value, so both a missing and a zero `endTime` yield `startTime`. -/
def requestTimeOf (r : NetworkRequest) : Int :=
  match r.endTime with
  | some e => if e = 0 then r.startTime else e
  | none => r.startTime

/-- `request.status && request.status >= 400` (truthiness, then comparison). -/
def statusAtLeast400 (status : Option Int) : Bool :=
  match status with
  | some s => if s = 0 then false else decide (400 ≤ s)
  | none => false

/-- The body of the correlation loop: inside the time window and one of
error/timeout outcome, URL mentioned in the message, or status ≥ 400. -/
def relatedPred (entry : LogEntry) (r : NetworkRequest) : Bool :=
  decide ((entry.timestamp - requestTimeOf r).natAbs ≤ TIME_WINDOW_MS) &&
    (isErrorStatus r.requestStatus || isTimeoutStatus r.requestStatus ||
      strIncludes entry.message r.url || statusAtLeast400 r.status)

/-- `findRelatedNetworkRequests(entry)` over the interceptor's request list. -/
def findRelatedNetworkRequests (requests : List NetworkRequest)
    (entry : LogEntry) : List NetworkRequest :=
  requests.filter (relatedPred entry)

/-- The correlation condition exactly as the claim words it (for comparison
with `relatedPred`): the time base is `endTime ?? startTime` — `startTime` is
used only when `endTime` is absent. -/
def claimCorrelationPred (entry : LogEntry) (r : NetworkRequest) : Bool :=
  decide ((entry.timestamp - (r.endTime.getD r.startTime)).natAbs ≤ TIME_WINDOW_MS) &&
    (isErrorStatus r.requestStatus || isTimeoutStatus r.requestStatus ||
      statusAtLeast400 r.status || strIncludes entry.message r.url)

/-! ## Classification, severity, causes (log-analyzer.ts) -/

/-- `matchErrorPattern(message)`: first rule whose matcher accepts. -/
def matchErrorPattern (patterns : List ErrorPattern) (message : String) :
    Option ErrorPattern :=
  patterns.find? fun p => p.pattern message

/-- `determineSeverity(entry, matchedPattern, relatedNetworkRequests)`. -/
def determineSeverity (entry : LogEntry) (matchedPattern : Option ErrorPattern)
    (relatedNetworkRequests : List NetworkRequest) : Severity :=
  match matchedPattern with
  | some p => p.severity
  | none =>
    if entry.level == LogLevel.error then
      if relatedNetworkRequests.any fun r => isErrorStatus r.requestStatus then
        Severity.high
      else Severity.medium
    else if entry.level == LogLevel.warn then Severity.low
    else Severity.low

/-- The status-code specific suggestions pushed for a failed request
(`if (request.status) { ... }`). -/
def statusSuggestions (url : String) (status : Option Int) : List String :=
  match status with
  | some s =>
    if s == 0 then []
    else if s == 401 then ["인증 상태를 확인하세요"]
    else if s == 403 then ["접근 권한을 확인하세요"]
    else if s == 404 then ["API 엔드포인트가 존재하는지 확인하세요: " ++ url]
    else if decide (500 ≤ s) then ["서버 상태를 확인하세요"]
    else []
  | none => []

/-- The per-request part of `generateCausesAndSuggestions` (causes,
suggestions), in loop order. -/
def networkCausesSuggestions : List NetworkRequest → List String × List String
  | [] => ([], [])
  | r :: rest =>
    let tail := networkCausesSuggestions rest
    let causes :=
      (if isErrorStatus r.requestStatus then
        ["네트워크 요청 실패: " ++ r.method ++ " " ++ r.url] else []) ++
      (if isTimeoutStatus r.requestStatus then
        ["요청 시간 초과: " ++ r.url] else [])
    let suggs :=
      (if isErrorStatus r.requestStatus then statusSuggestions r.url r.status
       else []) ++
      (if isTimeoutStatus r.requestStatus then
        ["서버 응답 시간을 확인하세요", "네트워크 연결 상태를 확인하세요"] else [])
    (causes ++ tail.1, suggs ++ tail.2)

/-- `generateCausesAndSuggestions(entry, matchedPattern, related)`:
pattern-based items, then network-based items, then level-based defaults when
no cause was found, then `Set`-deduplication preserving first-seen order. -/
def generateCausesAndSuggestions (entry : LogEntry)
    (matchedPattern : Option ErrorPattern)
    (relatedNetworkRequests : List NetworkRequest) :
    List String × List String :=
  let patternCauses :=
    match matchedPattern with
    | some p => p.possibleCauses
    | none => []
  let patternSuggs :=
    match matchedPattern with
    | some p => p.suggestions
    | none => []
  let net := networkCausesSuggestions relatedNetworkRequests
  let possibleCauses := patternCauses ++ net.1
  let suggestions := patternSuggs ++ net.2
  let withDefaults :=
    if possibleCauses.isEmpty then
      if entry.level == LogLevel.error then
        (possibleCauses ++ ["예기치 않은 에러가 발생했습니다"],
         suggestions ++ ["스택 트레이스를 확인하세요", "입력 데이터를 검증하세요"])
      else if entry.level == LogLevel.warn then
        (possibleCauses ++ ["잠재적인 문제가 감지되었습니다"],
         suggestions ++ ["경고 메시지를 검토하세요"])
      else (possibleCauses, suggestions)
    else (possibleCauses, suggestions)
  (jsSetDedup withDefaults.1, jsSetDedup withDefaults.2)

/-- The body of `extractCodeContext`'s frame loop: the first frame whose
resolved `original.source` is a non-empty string. -/
def extractCodeContextLoop : List StackFrame → Option CodeContext
  | [] => none
  | f :: rest =>
    match f.original with
    | some o =>
      match o.source with
      | some s =>
        if s = "" then extractCodeContextLoop rest
        else some
          { fileName := o.fileName, lineNumber := o.lineNumber,
            columnNumber := o.columnNumber,
            sourcePreview := strSplitChar '\n' s }
      | none => extractCodeContextLoop rest
    | none => extractCodeContextLoop rest

/-- `extractCodeContext(stackTrace)`: a resolved frame's context, else the
first frame's bundled location, else absent. -/
def extractCodeContext (stackTrace : List StackFrame) : Option CodeContext :=
  match extractCodeContextLoop stackTrace with
  | some ctx => some ctx
  | none =>
    match stackTrace with
    | firstFrame :: _ =>
      some { fileName := firstFrame.fileName,
             lineNumber := firstFrame.lineNumber,
             columnNumber := firstFrame.columnNumber,
             sourcePreview := [] }
    | [] => none

/-- `analyze(entry)`. The per-frame resolver outcome (`resolveStackFrames`)
and the interceptor's request window are explicit parameters. -/
def analyze (resolveFrame : StackFrame → StackFrame)
    (patterns : List ErrorPattern) (requests : List NetworkRequest)
    (entry : LogEntry) : AnalysisResult :=
  let resolvedStackTrace := entry.stackTrace.map resolveFrame
  let matchedPattern := matchErrorPattern patterns entry.message
  let relatedNetworkRequests := findRelatedNetworkRequests requests entry
  let codeContext := extractCodeContext resolvedStackTrace
  let severity := determineSeverity entry matchedPattern relatedNetworkRequests
  let cs := generateCausesAndSuggestions entry matchedPattern relatedNetworkRequests
  { logEntry := { entry with stackTrace := resolvedStackTrace },
    errorType := matchedPattern.map ErrorPattern.errorType,
    possibleCauses := cs.1,
    suggestions := cs.2,
    relatedNetworkRequests := relatedNetworkRequests,
    severity := severity,
    codeContext := codeContext }

/-! ## Rule import (error-patterns.ts / log-analyzer.ts)

`JSON.parse` and `new RegExp` are platform primitives: the parse outcome is
an explicit `Except` parameter (`Except.error` = the parse threw on malformed
JSON) and regex compilation is an explicit total `compile` parameter. -/

/-- `deserializePattern(serialized)`. -/
def deserializePattern (compile : String → String → (String → Bool))
    (s : SerializableErrorPattern) : ErrorPattern :=
  { pattern := compile s.patternSource s.patternFlags,
    errorType := s.errorType,
    possibleCauses := s.possibleCauses,
    suggestions := s.suggestions,
    severity := s.severity }

/-- `importPatternsFromJSON(json)`: a parse failure propagates to the caller;
a parsed array is mapped through `deserializePattern`. -/
def importPatternsFromJSON (compile : String → String → (String → Bool))
    (parsed : Except String (List SerializableErrorPattern)) :
    Except String (List ErrorPattern) :=
  match parsed with
  | Except.error e => Except.error e
  | Except.ok serialized => Except.ok (serialized.map (deserializePattern compile))

/-- `LogAnalyzer.loadPatternsFromJSON(json)`: on success the whole rule list
becomes imported-then-defaults; the `catch` leaves the current list as it
was. The state is the `errorPatterns` field. -/
def loadPatternsFromJSON (errorPatterns : List ErrorPattern)
    (imported : Except String (List ErrorPattern)) : List ErrorPattern :=
  match imported with
  | Except.ok patterns => patterns ++ DEFAULT_ERROR_PATTERNS
  | Except.error _ => errorPatterns

/-- `addErrorPattern(pattern)`: `unshift`, highest priority first. -/
def addErrorPattern (errorPatterns : List ErrorPattern) (p : ErrorPattern) :
    List ErrorPattern :=
  p :: errorPatterns

/-! ## Derived notions and concrete scenario records used by the theorems -/

/-- The key list of the cache map, in insertion order. -/
def cacheKeys {V : Type} (st : CacheState V) : List String :=
  st.sourceMapCache.map Prod.fst

/-- The consistency invariant tying the cache map to the LRU access order:
distinct keys, the access order is a permutation of the key set, the map is
within capacity, and no key is the empty string (a falsy key defeats the
`if (oldestKey)` eviction guard, so the bound only holds away from it). -/
def CacheInv {V : Type} (maxCacheSize : Nat) (st : CacheState V) : Prop :=
  (cacheKeys st).Nodup ∧ (cacheKeys st).Perm st.cacheAccessOrder ∧
    (cacheKeys st).length ≤ maxCacheSize ∧ "" ∉ cacheKeys st

/-- The log entry of the specification's HTTP-404 scenario (`T = 10000`). -/
def entry404 : LogEntry :=
  { id := "1", level := LogLevel.error,
    message := "[HTTP 404] Not Found: https://api.example.com/users",
    timestamp := 10000, stackTrace := [] }

/-- The correlated network record of the HTTP-404 scenario
(`status: 404, endTime: T+50`). -/
def request404 : NetworkRequest :=
  { id := "n1", method := "GET", url := "https://api.example.com/users",
    startTime := 10000, endTime := some 10050, status := some 404,
    requestStatus := RequestStatus.success }

/-- A log entry at timestamp 0 whose message does not mention the record. -/
def entryZero : LogEntry :=
  { id := "1", level := LogLevel.error, message := "m", timestamp := 0,
    stackTrace := [] }

/-- A failed request whose `endTime` is present but zero: `endTime ??
startTime` is 0, while `endTime || startTime` is 5000. -/
def requestZeroEnd : NetworkRequest :=
  { id := "n", method := "GET", url := "u", startTime := 5000,
    endTime := some 0, status := none, requestStatus := RequestStatus.error }

/-! # Theorems -/

/-! ## Generic helper lemmas -/

/-- `find?` returns the first element satisfying the predicate: everything in
front of it fails the predicate. -/
theorem list_find?_split {α : Type} (p : α → Bool) :
    ∀ (l : List α) (a : α), l.find? p = some a →
      p a = true ∧ ∃ l₁ l₂, l = l₁ ++ a :: l₂ ∧ ∀ x ∈ l₁, p x = false := by
  intro l
  induction l with
  | nil => intro a h; simp [List.find?] at h
  | cons b t ih =>
    intro a h
    cases hb : p b with
    | true =>
      rw [List.find?_cons_of_pos _ hb] at h
      cases h
      exact ⟨hb, [], t, rfl, by intro x hx; simp at hx⟩
    | false =>
      rw [List.find?_cons_of_neg _ (by simp [hb])] at h
      obtain ⟨hpa, l₁, l₂, heq, hall⟩ := ih a h
      refine ⟨hpa, b :: l₁, l₂, by simp [heq], ?_⟩
      intro x hx
      rcases List.mem_cons.mp hx with hxb | hxl
      · rw [hxb]; exact hb
      · exact hall x hxl

/-- Membership and `contains` agree for strings. -/
theorem contains_iff_mem_str (l : List String) (a : String) :
    l.contains a = true ↔ a ∈ l := by
  simp [List.contains, List.elem_iff]

/-- `isErrorStatus` decides `=== 'error'`. -/
theorem isErrorStatus_iff (s : RequestStatus) :
    isErrorStatus s = true ↔ s = RequestStatus.error := by
  cases s <;> simp [isErrorStatus]

/-- `isTimeoutStatus` decides `=== 'timeout'`. -/
theorem isTimeoutStatus_iff (s : RequestStatus) :
    isTimeoutStatus s = true ↔ s = RequestStatus.timeout := by
  cases s <;> simp [isTimeoutStatus]

/-- `status && status >= 400` holds exactly for a present status ≥ 400. -/
theorem statusAtLeast400_iff (st : Option Int) :
    statusAtLeast400 st = true ↔ ∃ s, st = some s ∧ 400 ≤ s := by
  cases st with
  | none => simp [statusAtLeast400]
  | some s =>
    by_cases h : s = 0
    · subst h
      simp only [statusAtLeast400, if_pos rfl]
      constructor
      · intro hff; cases hff
      · rintro ⟨s', hs', hge⟩
        cases hs'
        omega
    · simp [statusAtLeast400, h]

/-- Unfolding of the correlation predicate into its logical reading. -/
theorem relatedPred_iff (entry : LogEntry) (r : NetworkRequest) :
    relatedPred entry r = true ↔
      ((entry.timestamp - requestTimeOf r).natAbs ≤ TIME_WINDOW_MS ∧
       (r.requestStatus = RequestStatus.error ∨
        r.requestStatus = RequestStatus.timeout ∨
        strIncludes entry.message r.url = true ∨
        ∃ s, r.status = some s ∧ 400 ≤ s)) := by
  simp only [relatedPred, Bool.and_eq_true, Bool.or_eq_true, decide_eq_true_eq,
    isErrorStatus_iff, isTimeoutStatus_iff, statusAtLeast400_iff]
  tauto

/-! ## C1 — segment lookup -/

/-- C1 (counterexample): for the decoded table of `"AACA,CACA"` and query
(line 1, column 5), both segments of generated line 0 qualify (columns 0 and
1), but `originalPositionFor` uses the segment with generated column 0 — not
the largest qualifying column — observable as original line 2 instead of 3. -/
theorem lookupMapping_not_largest_counterexample :
    lookupMapping (decodeMappings ("AACA,CACA")) 1 5 =
      some ⟨0, 0, some 0, some 1, some 0, none⟩ ∧
    (⟨0, 1, some 0, some 2, some 0, none⟩ : Mapping) ∈ decodeMappings ("AACA,CACA") ∧
    (((⟨0, 1, some 0, some 2, some 0, none⟩ : Mapping).generatedLine : Int) = 1 - 1 ∧
      (⟨0, 1, some 0, some 2, some 0, none⟩ : Mapping).generatedColumn ≤ 5) ∧
    ¬(∀ m ∈ decodeMappings ("AACA,CACA"),
        ((m.generatedLine : Int) = 1 - 1 ∧ m.generatedColumn ≤ 5) →
          m.generatedColumn ≤ (0 : Int)) ∧
    (originalPositionFor ⟨["src.ts"], [], none, decodeMappings ("AACA,CACA")⟩
        1 5).line = some 2 := by
  decide

/-- C1 (amended): the segment used by `originalPositionFor` is the *first*
segment, in decoded order, whose generated line equals the target line and
whose generated column does not exceed the target column — every segment
before it in the table fails that condition. -/
theorem originalPositionFor_first_qualifying
    (mappings : List Mapping) (line column : Int) (m : Mapping)
    (h : lookupMapping mappings line column = some m) :
    ((m.generatedLine : Int) = line - 1 ∧ m.generatedColumn ≤ column) ∧
    ∃ l₁ l₂, mappings = l₁ ++ m :: l₂ ∧
      ∀ m' ∈ l₁,
        ¬((m'.generatedLine : Int) = line - 1 ∧ m'.generatedColumn ≤ column) := by
  simp only [lookupMapping] at h
  obtain ⟨hp, l₁, l₂, heq, hall⟩ := list_find?_split _ _ _ h
  refine ⟨?_, l₁, l₂, heq, ?_⟩
  · simpa [Bool.and_eq_true, beq_iff_eq, decide_eq_true_eq] using hp
  · intro m' hm' hc
    have hfalse := hall m' hm'
    simp [Bool.and_eq_true, beq_iff_eq, decide_eq_true_eq, hc.1, hc.2] at hfalse

/-- C1 witness: the amended statement instantiated on the decoded table of
`"AACA,CACA"` at (line 1, column 5). -/
theorem originalPositionFor_first_qualifying_witness :
    ((((⟨0, 0, some 0, some 1, some 0, none⟩ : Mapping).generatedLine : Int) = 1 - 1 ∧
        (⟨0, 0, some 0, some 1, some 0, none⟩ : Mapping).generatedColumn ≤ 5) ∧
      ∃ l₁ l₂, decodeMappings ("AACA,CACA") =
          l₁ ++ (⟨0, 0, some 0, some 1, some 0, none⟩ : Mapping) :: l₂ ∧
        ∀ m' ∈ l₁,
          ¬((m'.generatedLine : Int) = 1 - 1 ∧ m'.generatedColumn ≤ 5)) :=
  originalPositionFor_first_qualifying (decodeMappings ("AACA,CACA")) 1 5 _
    (by decide)

/-! ## C2 — VLQ round trip -/

/-- C2: the VLQ round trip fails. Encoding `[32]` with the scheme of the
specification yields the two-group run `"gC"` (first group `0` with the
continuation flag, then group `2`), but `decodeVLQ` tests the continuation
bit against `VLQ_CONTINUATION_BIT = 64` while every alphabet code is ≤ 63,
so the flagged group is decoded as a standalone value `16` and the second
group as `1`. -/
theorem decodeVLQ_encode_roundtrip_fails :
    decodeVLQ (encodeVLQSequence [32]) = [16, 1] ∧
    decodeVLQ (encodeVLQSequence [32]) ≠ [32] := by
  decide

/-! ## C4 — LRU refresh on lookup -/

/-- C4: with capacity 2 and operations put(a), put(b), get(a), put(c), entry
`b` is evicted and `a` survives; in general a looked-up key present in the
access order is moved to its most-recently-used end. -/
theorem cacheLookup_marks_most_recently_used :
    (mapHas (runCacheOps 2 [("a", some 1), ("b", some 2), ("a", some 1),
        ("c", some 3)]).sourceMapCache ("b") = false ∧
      mapHas (runCacheOps 2 [("a", some 1), ("b", some 2), ("a", some 1),
        ("c", some 3)]).sourceMapCache ("a") = true ∧
      mapHas (runCacheOps 2 [("a", some 1), ("b", some 2), ("a", some 1),
        ("c", some 3)]).sourceMapCache ("c") = true) ∧
    ∀ (order : List String) (k : String), k ∈ order →
      (updateCacheAccess order k).getLast? = some k := by
  constructor
  · decide
  · intro order k hk
    unfold updateCacheAccess
    rw [if_pos ((contains_iff_mem_str order k).mpr hk)]
    simp

/-- C4 witness: the lookup-refresh conjunct at a concrete order. -/
theorem cacheLookup_marks_most_recently_used_witness :
    (updateCacheAccess ["a", "b"] ("a")).getLast? = some ("a") :=
  cacheLookup_marks_most_recently_used.2 ["a", "b"] ("a") (by decide)

/-! ## C5 — resolver failure semantics -/

/-- C5: a failing consumer pipeline never surfaces: when the mapping fetch
throws (`Except.error`) or every fallback inside `getSourceMapConsumer`
yields no consumer (`ok none`), `resolveStackFrame` returns the input frame
unchanged, so a raw frame keeps `original` absent. The embedding is total by
construction, mirroring the enclosing `try`/`catch`. -/
theorem resolveStackFrame_failure_returns_frame :
    ∀ (isEnabled : Bool) (frame : StackFrame),
      resolveStackFrame isEnabled (Except.error ()) frame = frame ∧
      resolveStackFrame isEnabled (Except.ok none) frame = frame ∧
      (frame.original = none →
        (resolveStackFrame isEnabled (Except.error ()) frame).original = none) := by
  intro isEnabled frame
  refine ⟨?_, ?_, ?_⟩ <;> cases isEnabled <;> simp [resolveStackFrame]

/-- C5 witness: a concrete raw frame under a throwing mapping fetch. -/
theorem resolveStackFrame_failure_witness :
    (resolveStackFrame true (Except.error ())
        { fileName := "bundle.js", lineNumber := 10, columnNumber := 5,
          functionName := "fn", source := "raw", original := none }).original =
      none :=
  (resolveStackFrame_failure_returns_frame true
    { fileName := "bundle.js", lineNumber := 10, columnNumber := 5,
      functionName := "fn", source := "raw", original := none }).2.2 rfl

/-! ## C6 — temporal correlation -/

/-- C6 (counterexample): a failed request whose `endTime` is present but `0`
satisfies the claim's condition (its `endTime ?? startTime` is 0, within
2000ms of the log at timestamp 0, and its outcome is error), yet the code —
which computes `endTime || startTime` — measures against `startTime = 5000`
and excludes it. -/
theorem correlation_endTime_zero_counterexample :
    claimCorrelationPred entryZero requestZeroEnd = true ∧
    findRelatedNetworkRequests [requestZeroEnd] entryZero = [] := by
  decide

/-- C6 (amended): a record is included exactly when the absolute difference
between the log timestamp and the record's `endTime` — or `startTime` when
`endTime` is absent *or zero* — is at most 2000ms and the record's outcome is
error or timeout, or its status is ≥ 400, or the log message contains its
URL; the output preserves the input window's order (it is a sublist). -/
theorem findRelatedNetworkRequests_characterization :
    ∀ (entry : LogEntry) (requests : List NetworkRequest),
      List.Sublist (findRelatedNetworkRequests requests entry) requests ∧
      ∀ r, r ∈ findRelatedNetworkRequests requests entry ↔
        (r ∈ requests ∧
          ((entry.timestamp -
              (match r.endTime with
               | some e => if e = 0 then r.startTime else e
               | none => r.startTime)).natAbs ≤ TIME_WINDOW_MS ∧
           (r.requestStatus = RequestStatus.error ∨
            r.requestStatus = RequestStatus.timeout ∨
            strIncludes entry.message r.url = true ∨
            ∃ s, r.status = some s ∧ 400 ≤ s))) := by
  intro entry requests
  constructor
  · exact List.filter_sublist _
  · intro r
    simp only [findRelatedNetworkRequests, List.mem_filter, relatedPred_iff,
      requestTimeOf]

/-! ## C7 — the HTTP 404 scenario -/

/-- C7: for the error entry `"[HTTP 404] ..."` at T = 10000 and the
correlated record (status 404, endTime T+50), the produced result has the
matched "HTTP Client Error" rule's severity `high`, and its causes include
the 404-specific guidance string. -/
theorem analyze_http404_scenario :
    (analyze id DEFAULT_ERROR_PATTERNS [request404] entry404).severity =
      Severity.high ∧
    (analyze id DEFAULT_ERROR_PATTERNS [request404] entry404).errorType =
      some ("HTTP Client Error") ∧
    "요청한 리소스를 찾을 수 없습니다 (404)" ∈
      (analyze id DEFAULT_ERROR_PATTERNS [request404] entry404).possibleCauses ∧
    (analyze id DEFAULT_ERROR_PATTERNS [request404] entry404).relatedNetworkRequests =
      [request404] := by
  decide

/-! ## C8 — malformed rule import -/

/-- C8: when `JSON.parse` throws on the import payload,
`importPatternsFromJSON` propagates the failure to its caller, and
`loadPatternsFromJSON` leaves the currently loaded rule list exactly
unchanged (the swap only happens after a successful parse-and-map). -/
theorem importPatterns_malformed_json :
    ∀ (compile : String → String → (String → Bool))
      (errorPatterns : List ErrorPattern) (e : String),
      importPatternsFromJSON compile (Except.error e) = Except.error e ∧
      loadPatternsFromJSON errorPatterns
          (importPatternsFromJSON compile (Except.error e)) = errorPatterns :=
  fun _ _ _ => ⟨rfl, rfl⟩

/-! ## C9 — mapping-source discovery order -/

/-- C9 (counterexample): for `"https://e.com/app.js"`, with a HEAD oracle
that succeeds exactly on the extension-replaced candidate
`"https://e.com/app.map"`, discovery still returns `none` — the code's second
candidate is `.js → .js.map`, never the extension replacement. -/
theorem findSourceMapUrl_skips_extension_replacement :
    findSourceMapUrl [] (fun r _ => r)
        (fun u => u == extensionReplacedWithMap ("https://e.com/app.js")) none
        ("https://e.com/app.js") = none ∧
    extensionReplacedWithMap ("https://e.com/app.js") = "https://e.com/app.map" ∧
    (fun u => u == extensionReplacedWithMap ("https://e.com/app.js"))
        ("https://e.com/app.map") = true := by
  decide

/-- C9 (amended): on a URL-cache miss the discovery tries, in order,
`url + ".map"`, then the URL with a trailing `.js` replaced by `.js.map`
(other URLs unchanged — not a general extension replacement), and finally
the first `sourceMappingURL` directive of the fetched body, resolved against
the file's URL. -/
theorem findSourceMapUrl_candidate_order :
    ∀ (resolveU : String → String → String) (headOk : String → Bool)
      (bodyFetch : Option String) (fileUrl : String),
      (headOk (fileUrl ++ ".map") = true →
        findSourceMapUrl [] resolveU headOk bodyFetch fileUrl =
          some (fileUrl ++ ".map")) ∧
      (headOk (fileUrl ++ ".map") = false →
        headOk (jsReplaceJsToMap fileUrl) = true →
        findSourceMapUrl [] resolveU headOk bodyFetch fileUrl =
          some (jsReplaceJsToMap fileUrl)) ∧
      (headOk (fileUrl ++ ".map") = false →
        headOk (jsReplaceJsToMap fileUrl) = false →
        findSourceMapUrl [] resolveU headOk bodyFetch fileUrl =
          bodyFetch.bind fun content =>
            (scanSourceMappingURL content).map fun ref => resolveU ref fileUrl) := by
  intro resolveU headOk bodyFetch fileUrl
  refine ⟨?_, ?_, ?_⟩
  · intro h1
    simp [findSourceMapUrl, List.find?, h1]
  · intro h1 h2
    simp [findSourceMapUrl, List.find?, h1, h2]
  · intro h1 h2
    simp only [findSourceMapUrl, List.find?, h1, h2]
    cases bodyFetch with
    | none => rfl
    | some content =>
      cases hscan : scanSourceMappingURL content <;> simp [hscan]

/-- C9 witness: all three branches of the amended discovery order exercised
at concrete inputs. -/
theorem findSourceMapUrl_candidate_order_witness :
    (findSourceMapUrl [] (fun r _ => r) (fun u => u == "a.js.map") none
        ("a.js") = some ("a.js.map")) ∧
    (findSourceMapUrl [] (fun r _ => r) (fun u => u == "app.css") none
        ("app.css") = some ("app.css")) ∧
    (findSourceMapUrl [] (fun r _ => r) (fun _ => false)
        (some ("//# sourceMappingURL=x.map")) ("a.js") = some ("x.map")) := by
  refine ⟨?_, ?_, ?_⟩
  · exact (findSourceMapUrl_candidate_order (fun r _ => r)
      (fun u => u == "a.js.map") none ("a.js")).1 (by decide)
  · exact (findSourceMapUrl_candidate_order (fun r _ => r)
      (fun u => u == "app.css") none ("app.css")).2.1 (by decide) (by decide)
  · have h := (findSourceMapUrl_candidate_order (fun r _ => r) (fun _ => false)
      (some ("//# sourceMappingURL=x.map")) ("a.js")).2.2 rfl rfl
    rw [h]
    decide

/-! ## C10 — successful import replaces the rule list -/

/-- C10: a well-formed import swaps the whole rule list for the imported
patterns followed by the built-in defaults, regardless of the previous list —
in particular anything previously added with `addErrorPattern` or by an
earlier import is discarded. -/
theorem loadPatterns_replaces_all :
    ∀ (compile : String → String → (String → Bool))
      (ps : List SerializableErrorPattern) (st : List ErrorPattern)
      (p : ErrorPattern),
      loadPatternsFromJSON st (importPatternsFromJSON compile (Except.ok ps)) =
        ps.map (deserializePattern compile) ++ DEFAULT_ERROR_PATTERNS ∧
      loadPatternsFromJSON (addErrorPattern st p)
          (importPatternsFromJSON compile (Except.ok ps)) =
        loadPatternsFromJSON st (importPatternsFromJSON compile (Except.ok ps)) :=
  fun _ _ _ _ => ⟨rfl, rfl⟩

/-! ## Cache map lemmas -/

/-- `Map.has` is membership of the key list. -/
theorem mapHas_iff_mem {V : Type} (m : List (String × Option V)) (k : String) :
    mapHas m k = true ↔ k ∈ m.map Prod.fst := by
  simp [mapHas, List.any_eq_true, List.mem_map, beq_iff_eq]

/-- Negative form of `mapHas_iff_mem`. -/
theorem mapHas_false_iff {V : Type} (m : List (String × Option V)) (k : String) :
    mapHas m k = false ↔ k ∉ m.map Prod.fst := by
  rw [← mapHas_iff_mem]
  cases mapHas m k <;> simp

/-- Inserting a fresh key appends it to the key list. -/
theorem keys_mapSet_not_has {V : Type} (m : List (String × Option V))
    (k : String) (v : Option V) (h : mapHas m k = false) :
    (mapSet m k v).map Prod.fst = m.map Prod.fst ++ [k] := by
  unfold mapSet
  rw [if_neg (by simp [h])]
  simp

/-- Deleting a key filters it out of the key list. -/
theorem keys_mapDelete {V : Type} (m : List (String × Option V)) (k : String) :
    (mapDelete m k).map Prod.fst = (m.map Prod.fst).filter (fun x => x != k) := by
  unfold mapDelete
  induction m with
  | nil => rfl
  | cons p t ih =>
    cases hpk : p.1 != k <;> simp [List.filter_cons, hpk, ih]

/-- A just-deleted key is gone. -/
theorem mapHas_mapDelete_self {V : Type} (m : List (String × Option V))
    (k : String) : mapHas (mapDelete m k) k = false := by
  rw [mapHas_false_iff, keys_mapDelete]
  intro hmem
  have hp := List.of_mem_filter hmem
  simp at hp

/-- `Map.has` after appending a single entry. -/
theorem mapHas_append_pair {V : Type} (m : List (String × Option V))
    (k j : String) (v : Option V) :
    mapHas (m ++ [(k, v)]) j = (mapHas m j || (k == j)) := by
  simp [mapHas, List.any_append]

/-- A key with a stored value is in the key list. -/
theorem mapGet_some_mem_keys {V : Type} (m : List (String × Option V))
    (k : String) (w : Option V) (h : mapGet m k = some w) :
    k ∈ m.map Prod.fst := by
  unfold mapGet at h
  cases hf : m.find? (fun p => p.1 == k) with
  | none => rw [hf] at h; cases h
  | some p =>
    have hmem := List.mem_of_find?_eq_some hf
    have hpk := List.find?_some hf
    simp only [beq_iff_eq] at hpk
    exact List.mem_map.mpr ⟨p, hmem, hpk⟩

/-- At capacity with a truthy (nonempty) LRU key, `addToCache` destroys and
deletes that entry before inserting. -/
theorem addToCache_at_capacity_ne {V : Type} (maxCacheSize : Nat)
    (st : CacheState V) (key : String) (value : Option V) (oldest : String)
    (rest : List String) (hcap : st.sourceMapCache.length ≥ maxCacheSize)
    (ho : st.cacheAccessOrder = oldest :: rest) (hold : oldest ≠ "") :
    addToCache maxCacheSize st key value =
      { sourceMapCache := mapSet (mapDelete st.sourceMapCache oldest) key value,
        cacheAccessOrder := rest ++ [key],
        destroyed := st.destroyed ++
          match mapGet st.sourceMapCache oldest with
          | some (some c) => [c]
          | _ => [] } := by
  unfold addToCache
  rw [if_pos hcap, ho]
  simp only [if_neg hold]

/-- At capacity with the empty string at the LRU head, the `if (oldestKey)`
guard skips the destroy/delete: only the `shift()` and the insertion remain,
so the map grows past the capacity. -/
theorem addToCache_at_capacity_empty {V : Type} (maxCacheSize : Nat)
    (st : CacheState V) (key : String) (value : Option V)
    (rest : List String) (hcap : st.sourceMapCache.length ≥ maxCacheSize)
    (ho : st.cacheAccessOrder = "" :: rest) :
    addToCache maxCacheSize st key value =
      { sourceMapCache := mapSet st.sourceMapCache key value,
        cacheAccessOrder := rest ++ [key],
        destroyed := st.destroyed } := by
  unfold addToCache
  rw [if_pos hcap, ho]
  simp

/-- Below capacity, `addToCache` just inserts. -/
theorem addToCache_below_capacity {V : Type} (maxCacheSize : Nat)
    (st : CacheState V) (key : String) (value : Option V)
    (hcap : ¬ st.sourceMapCache.length ≥ maxCacheSize) :
    addToCache maxCacheSize st key value =
      { sourceMapCache := mapSet st.sourceMapCache key value,
        cacheAccessOrder := st.cacheAccessOrder ++ [key],
        destroyed := st.destroyed } := by
  unfold addToCache
  rw [if_neg hcap]

/-- One `getSourceMapConsumer` step on a nonempty URL preserves the cache
invariant. -/
theorem accessStep_preserves_inv {V : Type} (maxCacheSize : Nat)
    (hmax : 1 ≤ maxCacheSize) (st : CacheState V) (url : String)
    (fetched : Option V) (hurl : url ≠ "") (hinv : CacheInv maxCacheSize st) :
    CacheInv maxCacheSize (accessStep maxCacheSize st url fetched) := by
  obtain ⟨hnd, hperm, hlen, hnone⟩ := hinv
  unfold accessStep
  by_cases hhas : mapHas st.sourceMapCache url = true
  · rw [if_pos hhas]
    refine ⟨hnd, ?_, hlen, hnone⟩
    have hmem : url ∈ st.cacheAccessOrder :=
      hperm.mem_iff.mp ((mapHas_iff_mem _ _).mp hhas)
    show (cacheKeys st).Perm (updateCacheAccess st.cacheAccessOrder url)
    unfold updateCacheAccess
    rw [if_pos ((contains_iff_mem_str _ _).mpr hmem)]
    have h1 : st.cacheAccessOrder.Perm (url :: st.cacheAccessOrder.erase url) :=
      List.perm_cons_erase hmem
    have h2 : (url :: st.cacheAccessOrder.erase url).Perm
        (st.cacheAccessOrder.erase url ++ [url]) :=
      @List.perm_append_comm _ [url] (st.cacheAccessOrder.erase url)
    exact hperm.trans (h1.trans h2)
  · rw [if_neg hhas]
    have hfalse : mapHas st.sourceMapCache url = false := by
      cases h : mapHas st.sourceMapCache url
      · rfl
      · exact absurd h hhas
    have hnotmem : url ∉ cacheKeys st := (mapHas_false_iff _ _).mp hfalse
    have hlen_keys : (cacheKeys st).length = st.sourceMapCache.length := by
      simp [cacheKeys]
    by_cases hcap : st.sourceMapCache.length ≥ maxCacheSize
    · have hord_len : st.cacheAccessOrder.length = (cacheKeys st).length :=
        hperm.length_eq.symm
      cases ho : st.cacheAccessOrder with
      | nil =>
        exfalso
        rw [ho] at hord_len
        simp at hord_len
        omega
      | cons oldest rest =>
        have hperm' : (cacheKeys st).Perm (oldest :: rest) := ho ▸ hperm
        have hold_mem : oldest ∈ cacheKeys st :=
          hperm'.mem_iff.mpr (List.mem_cons_self _ _)
        have hold_ne : oldest ≠ "" := fun he => hnone (he ▸ hold_mem)
        rw [addToCache_at_capacity_ne maxCacheSize st url fetched oldest rest
          hcap ho hold_ne]
        have hord_nd : (oldest :: rest).Nodup := by
          rw [← ho]; exact hperm.nodup_iff.mp hnd
        have hold_notin_rest : oldest ∉ rest := (List.nodup_cons.mp hord_nd).1
        have hkeys_del : (mapDelete st.sourceMapCache oldest).map Prod.fst =
            (cacheKeys st).filter (fun x => x != oldest) := keys_mapDelete _ _
        have hrest_filter : (oldest :: rest).filter (fun x => x != oldest) = rest := by
          rw [List.filter_cons]
          simp only [bne_self_eq_false, Bool.false_eq_true, if_false]
          exact List.filter_eq_self.mpr fun x hx => by
            simp only [bne_iff_ne, ne_eq]
            intro hxe
            exact hold_notin_rest (hxe ▸ hx)
        have hkeys1_perm : ((mapDelete st.sourceMapCache oldest).map Prod.fst).Perm
            rest := by
          rw [hkeys_del, ← hrest_filter]
          exact hperm'.filter _
        have hnd1 : ((mapDelete st.sourceMapCache oldest).map Prod.fst).Nodup := by
          rw [hkeys_del]; exact hnd.filter _
        have hnotmem1 : url ∉ (mapDelete st.sourceMapCache oldest).map Prod.fst := by
          rw [hkeys_del]
          intro hmem
          exact hnotmem (List.mem_of_mem_filter hmem)
        have hhas1 : mapHas (mapDelete st.sourceMapCache oldest) url = false :=
          (mapHas_false_iff _ _).mpr hnotmem1
        have hkeysF : (mapSet (mapDelete st.sourceMapCache oldest) url
            fetched).map Prod.fst =
            (mapDelete st.sourceMapCache oldest).map Prod.fst ++ [url] :=
          keys_mapSet_not_has _ _ _ hhas1
        refine ⟨?_, ?_, ?_, ?_⟩
        · show ((mapSet (mapDelete st.sourceMapCache oldest) url fetched).map
            Prod.fst).Nodup
          rw [hkeysF]
          simp only [List.nodup_append, List.nodup_cons, List.not_mem_nil,
            not_false_eq_true, List.nodup_nil, and_true, true_and]
          refine ⟨hnd1, ?_⟩
          intro x hx hxu
          simp only [List.mem_singleton] at hxu
          exact hnotmem1 (hxu ▸ hx)
        · show ((mapSet (mapDelete st.sourceMapCache oldest) url fetched).map
            Prod.fst).Perm (rest ++ [url])
          rw [hkeysF]
          exact hkeys1_perm.append_right _
        · show ((mapSet (mapDelete st.sourceMapCache oldest) url fetched).map
            Prod.fst).length ≤ maxCacheSize
          rw [hkeysF]
          have h1 : ((mapDelete st.sourceMapCache oldest).map Prod.fst).length =
              rest.length := hkeys1_perm.length_eq
          have h2 : rest.length + 1 = (cacheKeys st).length := by
            rw [← hord_len, ho]
            simp
          simp only [List.length_append, List.length_singleton, h1]
          omega
        · show "" ∉ (mapSet (mapDelete st.sourceMapCache oldest) url
            fetched).map Prod.fst
          rw [hkeysF]
          intro hmem
          rcases List.mem_append.mp hmem with hml | hmr
          · rw [hkeys_del] at hml
            exact hnone (List.mem_of_mem_filter hml)
          · simp only [List.mem_singleton] at hmr
            exact hurl hmr.symm
    · rw [addToCache_below_capacity maxCacheSize st url fetched hcap]
      have hkeysF : (mapSet st.sourceMapCache url fetched).map Prod.fst =
          cacheKeys st ++ [url] := keys_mapSet_not_has _ _ _ hfalse
      refine ⟨?_, ?_, ?_, ?_⟩
      · show ((mapSet st.sourceMapCache url fetched).map Prod.fst).Nodup
        rw [hkeysF]
        simp only [List.nodup_append, List.nodup_cons, List.not_mem_nil,
          not_false_eq_true, List.nodup_nil, and_true, true_and]
        refine ⟨hnd, ?_⟩
        intro x hx hxu
        simp only [List.mem_singleton] at hxu
        exact hnotmem (hxu ▸ hx)
      · show ((mapSet st.sourceMapCache url fetched).map Prod.fst).Perm
          (st.cacheAccessOrder ++ [url])
        rw [hkeysF]
        exact hperm.append_right _
      · show ((mapSet st.sourceMapCache url fetched).map Prod.fst).length ≤
          maxCacheSize
        rw [hkeysF]
        simp only [List.length_append, List.length_singleton]
        omega
      · show "" ∉ (mapSet st.sourceMapCache url fetched).map Prod.fst
        rw [hkeysF]
        intro hmem
        rcases List.mem_append.mp hmem with hml | hmr
        · exact hnone hml
        · simp only [List.mem_singleton] at hmr
          exact hurl hmr.symm

/-- Every state reachable with nonempty keys satisfies the invariant. -/
theorem runCacheOps_preserves_inv {V : Type} (maxCacheSize : Nat)
    (hmax : 1 ≤ maxCacheSize) (ops : List (String × Option V))
    (hne : ∀ op ∈ ops, op.1 ≠ "") :
    CacheInv maxCacheSize (runCacheOps maxCacheSize ops) := by
  have hgen : ∀ (l : List (String × Option V)) (st : CacheState V),
      (∀ op ∈ l, op.1 ≠ "") → CacheInv maxCacheSize st →
      CacheInv maxCacheSize
        (l.foldl (fun st op => accessStep maxCacheSize st op.1 op.2) st) := by
    intro l
    induction l with
    | nil => intro st _ h; exact h
    | cons op t ih =>
      intro st hl h
      exact ih _ (fun q hq => hl q (List.mem_cons_of_mem _ hq))
        (accessStep_preserves_inv maxCacheSize hmax st op.1 op.2
          (hl op (List.mem_cons_self _ _)) h)
  exact hgen ops _ hne
    ⟨List.nodup_nil, List.Perm.refl _, Nat.zero_le _, List.not_mem_nil _⟩

/-- An insertion past capacity with a truthy LRU head destroys and drops the
entry at the head of the access order. -/
theorem addToCache_evicts {V : Type} (maxCacheSize : Nat) (st : CacheState V)
    (k : String) (v : Option V) (oldest : String) (rest : List String) (c : V)
    (hcap : st.sourceMapCache.length ≥ maxCacheSize)
    (ho : st.cacheAccessOrder = oldest :: rest)
    (hold : oldest ≠ "")
    (hget : mapGet st.sourceMapCache oldest = some (some c))
    (hfresh : mapHas st.sourceMapCache k = false) :
    mapHas (addToCache maxCacheSize st k v).sourceMapCache oldest = false ∧
    (addToCache maxCacheSize st k v).destroyed = st.destroyed ++ [c] := by
  have hk_ne : (k == oldest) = false := by
    have hold_mem : oldest ∈ st.sourceMapCache.map Prod.fst :=
      mapGet_some_mem_keys _ _ _ hget
    have hk_notmem : k ∉ st.sourceMapCache.map Prod.fst :=
      (mapHas_false_iff _ _).mp hfresh
    simp only [beq_eq_false_iff_ne, ne_eq]
    intro he
    exact hk_notmem (he ▸ hold_mem)
  have hhas1 : mapHas (mapDelete st.sourceMapCache oldest) k = false := by
    rw [mapHas_false_iff, keys_mapDelete]
    intro hmem
    exact (mapHas_false_iff _ _).mp hfresh (List.mem_of_mem_filter hmem)
  rw [addToCache_at_capacity_ne maxCacheSize st k v oldest rest hcap ho hold]
  constructor
  · show mapHas (mapSet (mapDelete st.sourceMapCache oldest) k v) oldest = false
    unfold mapSet
    rw [if_neg (by simp [hhas1])]
    rw [mapHas_append_pair]
    simp [mapHas_mapDelete_self, hk_ne]
  · show st.destroyed ++
        (match mapGet st.sourceMapCache oldest with
          | some (some c) => [c]
          | _ => []) = st.destroyed ++ [c]
    rw [hget]

/-- The eviction behaviour of one over-capacity access at any invariant
state. -/
theorem accessStep_eviction {V : Type} (maxCacheSize : Nat)
    (hmax : 1 ≤ maxCacheSize) (st : CacheState V)
    (hinv : CacheInv maxCacheSize st) (k : String) (v : Option V)
    (oldest : String) (c : V) (hk : k ≠ "")
    (hfresh : mapHas st.sourceMapCache k = false)
    (hsize : st.sourceMapCache.length = maxCacheSize)
    (hhead : st.cacheAccessOrder.head? = some oldest)
    (hget : mapGet st.sourceMapCache oldest = some (some c)) :
    mapHas (accessStep maxCacheSize st k v).sourceMapCache oldest = false ∧
    (accessStep maxCacheSize st k v).destroyed = st.destroyed ++ [c] ∧
    (accessStep maxCacheSize st k v).sourceMapCache.length ≤ maxCacheSize := by
  have hstep : accessStep maxCacheSize st k v = addToCache maxCacheSize st k v := by
    unfold accessStep
    rw [if_neg (by simp [hfresh])]
  cases horder : st.cacheAccessOrder with
  | nil => rw [horder] at hhead; cases hhead
  | cons a t =>
    rw [horder] at hhead
    simp only [List.head?_cons, Option.some.injEq] at hhead
    subst hhead
    have hold_mem : a ∈ cacheKeys st := mapGet_some_mem_keys _ _ _ hget
    have hold_ne : a ≠ "" := fun he => hinv.2.2.2 (he ▸ hold_mem)
    have hev := addToCache_evicts maxCacheSize st k v a t c hsize.ge horder
      hold_ne hget hfresh
    rw [hstep]
    refine ⟨hev.1, hev.2, ?_⟩
    have hinv' := accessStep_preserves_inv maxCacheSize hmax st k v hk hinv
    have hb := hinv'.2.2.1
    rw [hstep] at hb
    simpa [cacheKeys] using hb

/-- C3 (amended): after any finite sequence of cache accesses with truthy
(nonempty-string) keys, starting from the empty cache, the map holds at most
`MAX_CACHE_SIZE` (50) entries; and whenever an insertion of a truthy key
arrives with the cache at capacity, the least-recently-used entry (the head
of the access order) is destroyed and removed, so its subsequent lookup
misses, and the bound still holds. The restriction to nonempty keys is
forced: a falsy key defeats the `if (oldestKey)` eviction guard. -/
theorem cache_bound_and_lru_eviction {V : Type}
    (ops : List (String × Option V)) (hne : ∀ op ∈ ops, op.1 ≠ "") :
    (runCacheOps MAX_CACHE_SIZE ops).sourceMapCache.length ≤ MAX_CACHE_SIZE ∧
    ∀ (k : String) (v : Option V) (oldest : String) (c : V),
      k ≠ "" →
      mapHas (runCacheOps MAX_CACHE_SIZE ops).sourceMapCache k = false →
      (runCacheOps MAX_CACHE_SIZE ops).sourceMapCache.length = MAX_CACHE_SIZE →
      (runCacheOps MAX_CACHE_SIZE ops).cacheAccessOrder.head? = some oldest →
      mapGet (runCacheOps MAX_CACHE_SIZE ops).sourceMapCache oldest =
        some (some c) →
      mapHas (accessStep MAX_CACHE_SIZE (runCacheOps MAX_CACHE_SIZE ops) k
          v).sourceMapCache oldest = false ∧
      (accessStep MAX_CACHE_SIZE (runCacheOps MAX_CACHE_SIZE ops) k v).destroyed =
        (runCacheOps MAX_CACHE_SIZE ops).destroyed ++ [c] ∧
      (accessStep MAX_CACHE_SIZE (runCacheOps MAX_CACHE_SIZE ops) k
          v).sourceMapCache.length ≤ MAX_CACHE_SIZE := by
  have hmax : 1 ≤ MAX_CACHE_SIZE := by norm_num [MAX_CACHE_SIZE]
  have hinv := runCacheOps_preserves_inv MAX_CACHE_SIZE hmax ops hne
  constructor
  · have hb := hinv.2.2.1
    simpa [cacheKeys] using hb
  · intro k v oldest c hk hfresh hsize hhead hget
    exact accessStep_eviction MAX_CACHE_SIZE hmax _ hinv k v oldest c hk hfresh
      hsize hhead hget

set_option maxRecDepth 100000 in
/-- C3 (counterexample to the original claim): insert the empty-string key
first, then fifty more distinct keys. The fifty-first insertion finds the
cache at capacity, `shift()` hands the falsy key `""` to the `if (oldestKey)`
guard, the destroy/delete is skipped, and the map grows to 51 entries —
nothing was destroyed and the supposedly evicted key still hits. -/
theorem cache_bound_counterexample :
    (runCacheOps MAX_CACHE_SIZE
        (("", (some 0 : Option Nat)) ::
          (List.range 50).map fun i =>
            (toString (i + 1), some (i + 1)))).sourceMapCache.length = 51 ∧
    MAX_CACHE_SIZE <
      (runCacheOps MAX_CACHE_SIZE
        (("", (some 0 : Option Nat)) ::
          (List.range 50).map fun i =>
            (toString (i + 1), some (i + 1)))).sourceMapCache.length ∧
    (runCacheOps MAX_CACHE_SIZE
        (("", (some 0 : Option Nat)) ::
          (List.range 50).map fun i =>
            (toString (i + 1), some (i + 1)))).destroyed = [] ∧
    mapHas (runCacheOps MAX_CACHE_SIZE
        (("", (some 0 : Option Nat)) ::
          (List.range 50).map fun i =>
            (toString (i + 1), some (i + 1)))).sourceMapCache ("") = true := by
  decide

set_option maxRecDepth 100000 in
/-- C3 witness: fifty distinct truthy insertions fill the cache to capacity;
the next insertion destroys and evicts the first-inserted entry `"0"`, whose
lookup then misses, with the bound intact. -/
theorem cache_bound_and_lru_eviction_witness :
    mapHas (accessStep MAX_CACHE_SIZE
        (runCacheOps MAX_CACHE_SIZE
          ((List.range 50).map fun i => (toString i, (some i : Option Nat))))
        ("fresh") (some 99)).sourceMapCache ("0") = false ∧
    (accessStep MAX_CACHE_SIZE
        (runCacheOps MAX_CACHE_SIZE
          ((List.range 50).map fun i => (toString i, (some i : Option Nat))))
        ("fresh") (some 99)).destroyed =
      (runCacheOps MAX_CACHE_SIZE
        ((List.range 50).map fun i => (toString i, (some i : Option Nat)))).destroyed
        ++ [0] ∧
    (accessStep MAX_CACHE_SIZE
        (runCacheOps MAX_CACHE_SIZE
          ((List.range 50).map fun i => (toString i, (some i : Option Nat))))
        ("fresh") (some 99)).sourceMapCache.length ≤ MAX_CACHE_SIZE :=
  (cache_bound_and_lru_eviction
      ((List.range 50).map fun i => (toString i, (some i : Option Nat)))
      (by decide)).2
    ("fresh") (some 99) ("0") 0 (by decide) (by decide) (by decide) (by decide)
      (by decide)

/-- C6 witness: the characterization applied to the HTTP-404 scenario record
(within the window, status 404 ≥ 400 ⟹ included). -/
theorem findRelatedNetworkRequests_characterization_witness :
    request404 ∈ findRelatedNetworkRequests [request404] entry404 :=
  ((findRelatedNetworkRequests_characterization entry404 [request404]).2
      request404).mpr
    ⟨by decide, by decide,
      Or.inr (Or.inr (Or.inr ⟨404, rfl, by norm_num⟩))⟩
